import Mathlib

/-!
# Option builder of `redis/options.go`

A shallow embedding of the `Options` record, its setters, the `With*`
configuration functions and `Build`, followed by the properties proved of
them.

Modelling conventions.

* `*Options` that may be nil is `Option (Options α)`; the configuration
  functions dereference their argument, so they act on `Options α`.
* `interface{}` for the payload is `Option α` (`none` is the nil interface);
  `json.Marshal` is a parameter `marshal : α → Except ε β` (the encoder is a
  library function, `ε` its errors and `β` its byte slices).
* Go `int` and `int64` are `Int`: the code only stores and compares them, it
  performs no arithmetic, so no wrap-around can occur.  The two types stay
  distinct in the output (`Arg.int` and `Arg.int64`), as they are distinct
  dynamic types inside `[]interface{}`.
* A Go `error` result is `Option _` (`none` is the nil error).  A nil slice
  and an empty slice are both `[]`.
* `Build` is embedded twice: as a function of the record (`Build`), which the
  properties of its results use, and with the record behind the receiver as
  the state of a `StateM` computation (`BuildM`), which shows what a call
  does to the record; `BuildM_run` relates the two.
-/

set_option autoImplicit false

namespace Redis

/-- ExpireSecondsOption time. -/
def ExpireSecondsOption : String := "EX"

/-- ExpireMillisecondsOption time. -/
def ExpireMillisecondsOption : String := "PX"

/-- ExistOption is exist key. -/
def ExistOption : String := "XX"

/-- NotExitOption is not exist key. -/
def NotExitOption : String := "NX"

/-- Options is redis options. -/
structure Options (α : Type) where
  key : String
  oldKey : String
  keyValue : String
  data : Option α
  isCount : Bool
  count : Int
  expireSecond : Int
  expireMilliSecond : Int
  notExist : Bool
  exist : Bool
  keepTTL : Int
  isRange : Bool
  rangeLower : Int
  rangeUpper : Int
  minInf : String
  maxInf : String
  deriving DecidableEq, Repr

/-- One entry of the `[]interface{}` that `Build` returns, tagged with its
dynamic type: `string`, `int`, `int64` or the `[]byte` of the encoder. -/
inductive Arg (β : Type) where
  | str (s : String)
  | int (n : Int)
  | int64 (n : Int)
  | raw (b : β)
  deriving DecidableEq, Repr

/-- The `error` values `Build` can return: one made by `fmt.Errorf`, or the
error of the encoder passed on as it is. -/
inductive Err (ε : Type) where
  | errorf (msg : String)
  | cause (e : ε)
  deriving DecidableEq, Repr

variable {α β ε : Type}

/-- NewCommandOptions is build new options: every field has its zero value. -/
def NewCommandOptions : Options α :=
  { key := "", oldKey := "", keyValue := "", data := none, isCount := false, count := 0,
    expireSecond := 0, expireMilliSecond := 0, notExist := false, exist := false,
    keepTTL := 0, isRange := false, rangeLower := 0, rangeUpper := 0,
    minInf := "", maxInf := "" }

/-- CommandOptions is function options. -/
abbrev CommandOptions (α : Type) := Options α → Options α

/-! ## Setters: the record after the call, and the returned error -/

def Options.setKey (options : Options α) (key : String) : Options α × Option String :=
  if key ≠ "" then ({ options with key := key }, none)
  else (options, some "Error key is empty")

def Options.setOldKey (options : Options α) (key : String) : Options α × Option String :=
  if key ≠ "" then ({ options with oldKey := key }, none)
  else (options, some "Error old key is empty")

def Options.setKeyValue (options : Options α) (keyValue : String) :
    Options α × Option String :=
  if keyValue ≠ "" then ({ options with keyValue := keyValue }, none)
  else (options, some "Error key value is empty")

def Options.setData (options : Options α) (data : Option α) : Options α × Option String :=
  match data with
  | some d => ({ options with data := some d }, none)
  | none => (options, some "Error data of key is empty")

def Options.setIsCount (options : Options α) : Options α × Option String :=
  ({ options with isCount := !options.isCount }, none)

def Options.setCount (options : Options α) (count : Int) : Options α × Option String :=
  ({ options with count := count }, none)

def Options.setExpireS (options : Options α) (exp : Int) : Options α × Option String :=
  if exp > -1 then ({ options with expireSecond := exp }, none)
  else (options, some "Error expired of key is empty")

def Options.setExpireM (options : Options α) (exp : Int) : Options α × Option String :=
  if exp > -1 then ({ options with expireMilliSecond := exp }, none)
  else (options, some "Error expired of key is empty")

def Options.setExist (options : Options α) (exist : Bool) : Options α × Option String :=
  ({ options with exist := exist }, none)

def Options.setNotExist (options : Options α) (notExist : Bool) :
    Options α × Option String :=
  ({ options with notExist := notExist }, none)

def Options.setIsRange (options : Options α) : Options α × Option String :=
  ({ options with isRange := true }, none)

def Options.setRange (options : Options α) (lower upper : Int) : Options α × Option String :=
  let options := { options with rangeUpper := upper }
  ({ options with rangeLower := lower }, none)

/-! ## Build -/

/-- Build is generate options.  The statements follow the source one by one;
`op` is rebound where the source appends to it. -/
def Build (marshal : α → Except ε β) : Option (Options α) → List (Arg β) × Option (Err ε)
  | none => ([], none)
  | some options =>
    let op : List (Arg β) := []
    if options.exist && options.notExist then
      ([], some (.errorf "Error invalid. Please choose exist or not exist, dont take all"))
    else if options.expireSecond > 0 ∧ options.expireMilliSecond > 0 then
      ([], some (.errorf
        "Error invalid. Please choose expire with second or expire with millisecond, dont take all"))
    else
      let op := if options.oldKey ≠ "" then op ++ [Arg.str options.oldKey] else op
      let op := if options.key ≠ "" then op ++ [Arg.str options.key] else op
      let op := if options.isCount then op ++ [Arg.int options.count] else op
      let op := if options.keyValue ≠ "" then op ++ [Arg.str options.keyValue] else op
      let encoded : Except ε (List (Arg β)) :=
        match options.data with
        | some d =>
          match marshal d with
          | .error err => .error err
          | .ok raw => .ok (op ++ [Arg.raw raw])
        | none => .ok op
      match encoded with
      | .error err => (op, some (.cause err))
      | .ok op =>
        let op := if options.expireSecond > 0 then
          (op ++ [Arg.str ExpireSecondsOption]) ++ [Arg.int64 options.expireSecond] else op
        let op := if options.expireMilliSecond > 0 then
          (op ++ [Arg.str ExpireMillisecondsOption]) ++ [Arg.int64 options.expireMilliSecond]
          else op
        let op := if options.exist then op ++ [Arg.str ExistOption] else op
        let op := if options.notExist then op ++ [Arg.str NotExitOption] else op
        let op := if options.isRange then
          (op ++ [Arg.int options.rangeLower]) ++ [Arg.int options.rangeUpper] else op
        let op := if options.minInf ≠ "" then op ++ [Arg.str options.minInf] else op
        let op := if options.maxInf ≠ "" then op ++ [Arg.str options.maxInf] else op
        (op, none)

/-! ## Configuration functions: each calls its setter and drops the error -/

/-- WithKey is set key. -/
def WithKey (key : String) : CommandOptions α :=
  fun options => (options.setKey key).1

/-- WithOldKey is old key. -/
def WithOldKey (key : String) : CommandOptions α :=
  fun options => (options.setOldKey key).1

/-- WithKeyValue is key value. -/
def WithKeyValue (keyValue : String) : CommandOptions α :=
  fun options => (options.setKeyValue keyValue).1

/-- WithCount is count argument. -/
def WithCount (count : Int) : CommandOptions α :=
  fun options =>
    let options := options.setIsCount.1
    (options.setCount count).1

/-- WithData is data of key. -/
def WithData (data : Option α) : CommandOptions α :=
  fun options => (options.setData data).1

/-- WithExpireSecond set expire time. -/
def WithExpireSecond (exp : Int) : CommandOptions α :=
  fun options => (options.setExpireS exp).1

/-- WithExpireMillisecond is expire in millisecond. -/
def WithExpireMillisecond (exp : Int) : CommandOptions α :=
  fun options => (options.setExpireM exp).1

/-- WithExist is exist key. -/
def WithExist : CommandOptions α :=
  fun options => (options.setExist true).1

/-- WithNotExist is not exits key. -/
def WithNotExist : CommandOptions α :=
  fun options => (options.setNotExist true).1

/-- WithRange sets the range flag and both bounds. -/
def WithRange (lower upper : Int) : CommandOptions α :=
  fun options =>
    let options := options.setIsRange.1
    (options.setRange lower upper).1

/-- WithMinInf is min infinity. -/
def WithMinInf : CommandOptions α :=
  fun options => { options with minInf := "-inf" }

/-- WithMaxInf is max infinity. -/
def WithMaxInf : CommandOptions α :=
  fun options => { options with maxInf := "+inf" }

/-! ## Sequences of configuration functions -/

/-- A call of one of the twelve configuration functions with its arguments. -/
inductive Call (α : Type) where
  | withKey (key : String)
  | withOldKey (key : String)
  | withKeyValue (keyValue : String)
  | withCount (count : Int)
  | withData (data : Option α)
  | withExpireSecond (exp : Int)
  | withExpireMillisecond (exp : Int)
  | withExist
  | withNotExist
  | withRange (lower upper : Int)
  | withMinInf
  | withMaxInf
  deriving DecidableEq, Repr

/-- The configuration function a call denotes. -/
def Call.run : Call α → CommandOptions α
  | .withKey key => WithKey key
  | .withOldKey key => WithOldKey key
  | .withKeyValue keyValue => WithKeyValue keyValue
  | .withCount count => WithCount count
  | .withData data => WithData data
  | .withExpireSecond exp => WithExpireSecond exp
  | .withExpireMillisecond exp => WithExpireMillisecond exp
  | .withExist => WithExist
  | .withNotExist => WithNotExist
  | .withRange lower upper => WithRange lower upper
  | .withMinInf => WithMinInf
  | .withMaxInf => WithMaxInf

/-- The caller's loop `for _, opt := range opts { opt(options) }`: the
configuration functions are applied to the record from first to last. -/
def applyAll (calls : List (Call α)) (options : Options α) : Options α :=
  calls.foldl (fun o c => c.run o) options

/-- A record is reachable when some sequence of configuration functions
produces it from a fresh record. -/
def Reachable (options : Options α) : Prop :=
  ∃ calls : List (Call α), options = applyAll calls NewCommandOptions

/-! ## A small encoder, used to evaluate `Build` on concrete records -/

/-- Example payloads: a boolean, which encodes, and a channel, which
`json.Marshal` rejects. -/
inductive Payload where
  | bool (b : Bool)
  | chan
  deriving DecidableEq, Repr

/-- Example encoder: a boolean becomes the bytes of `true` or `false`, a
channel is an unsupported type. -/
def encodePayload : Payload → Except String (List Nat)
  | .bool true => .ok [116, 114, 117, 101]
  | .bool false => .ok [102, 97, 108, 115, 101]
  | .chan => .error "json: unsupported type: chan int"

/-- A record with every field set and no conflict. -/
def sampleFull : Options Payload :=
  { key := "k", oldKey := "o", keyValue := "f", data := some (.bool true), isCount := true,
    count := -3, expireSecond := 0, expireMilliSecond := 7, notExist := true, exist := false,
    keepTTL := 0, isRange := true, rangeLower := 5, rangeUpper := 1,
    minInf := "-inf", maxInf := "+inf" }

/-- A record whose payload cannot be encoded, with no conflict. -/
def sampleChan : Options Payload :=
  { key := "k", oldKey := "", keyValue := "f", data := some .chan, isCount := true,
    count := 2, expireSecond := 30, expireMilliSecond := 0, notExist := false, exist := true,
    keepTTL := 0, isRange := true, rangeLower := 1, rangeUpper := 5,
    minInf := "-inf", maxInf := "" }

/-! ## The shape of `Build` -/

/-- The entries `Build` appends before it reaches the payload. -/
def headArgs (r : Options α) : List (Arg β) :=
  (if r.oldKey ≠ "" then [Arg.str r.oldKey] else []) ++
  (if r.key ≠ "" then [Arg.str r.key] else []) ++
  (if r.isCount = true then [Arg.int r.count] else []) ++
  (if r.keyValue ≠ "" then [Arg.str r.keyValue] else [])

/-- The entries `Build` appends after the payload. -/
def tailArgs (r : Options α) : List (Arg β) :=
  (if r.expireSecond > 0 then [Arg.str "EX", Arg.int64 r.expireSecond] else []) ++
  (if r.expireMilliSecond > 0 then [Arg.str "PX", Arg.int64 r.expireMilliSecond] else []) ++
  (if r.exist = true then [Arg.str "XX"] else []) ++
  (if r.notExist = true then [Arg.str "NX"] else []) ++
  (if r.isRange = true then [Arg.int r.rangeLower, Arg.int r.rangeUpper] else []) ++
  (if r.minInf ≠ "" then [Arg.str r.minInf] else []) ++
  (if r.maxInf ≠ "" then [Arg.str r.maxInf] else [])

/-! ## Presence of fields -/

/-- Every field that is set in `r` is set in `r2`, where set means non-empty
for the strings, non-nil for the payload, true for the flags and positive for
the two expiry fields. -/
def StillSet (r r2 : Options α) : Prop :=
  (r.key ≠ "" → r2.key ≠ "") ∧
  (r.oldKey ≠ "" → r2.oldKey ≠ "") ∧
  (r.keyValue ≠ "" → r2.keyValue ≠ "") ∧
  (r.minInf ≠ "" → r2.minInf ≠ "") ∧
  (r.maxInf ≠ "" → r2.maxInf ≠ "") ∧
  (r.data ≠ none → r2.data ≠ none) ∧
  (r.isCount = true → r2.isCount = true) ∧
  (r.exist = true → r2.exist = true) ∧
  (r.notExist = true → r2.notExist = true) ∧
  (r.isRange = true → r2.isRange = true) ∧
  (0 < r.expireSecond → 0 < r2.expireSecond) ∧
  (0 < r.expireMilliSecond → 0 < r2.expireMilliSecond)

/-! ## The receiver across a call of `Build` -/

/-- Build on a non-nil receiver, with the record behind the pointer as the
state of the computation: `(← get).f` is a read of `options.f`, an assignment
to a field would be a `set` or `modify`, and `op` is the local slice.  The
statements are those of the source from the first conflict check on (the nil
check before them returns without dereferencing the pointer, see `Build`). -/
def BuildM (marshal : α → Except ε β) :
    StateM (Options α) (List (Arg β) × Option (Err ε)) := do
  let mut op : List (Arg β) := []
  if (← get).exist && (← get).notExist then
    return ([], some (.errorf "Error invalid. Please choose exist or not exist, dont take all"))
  if (← get).expireSecond > 0 ∧ (← get).expireMilliSecond > 0 then
    return ([], some (.errorf
      "Error invalid. Please choose expire with second or expire with millisecond, dont take all"))
  if (← get).oldKey ≠ "" then
    op := op ++ [Arg.str (← get).oldKey]
  if (← get).key ≠ "" then
    op := op ++ [Arg.str (← get).key]
  if (← get).isCount then
    op := op ++ [Arg.int (← get).count]
  if (← get).keyValue ≠ "" then
    op := op ++ [Arg.str (← get).keyValue]
  if let some d := (← get).data then
    match marshal d with
    | .error err => return (op, some (.cause err))
    | .ok raw => op := op ++ [Arg.raw raw]
  if (← get).expireSecond > 0 then
    op := op ++ [Arg.str ExpireSecondsOption]
    op := op ++ [Arg.int64 (← get).expireSecond]
  if (← get).expireMilliSecond > 0 then
    op := op ++ [Arg.str ExpireMillisecondsOption]
    op := op ++ [Arg.int64 (← get).expireMilliSecond]
  if (← get).exist then
    op := op ++ [Arg.str ExistOption]
  if (← get).notExist then
    op := op ++ [Arg.str NotExitOption]
  if (← get).isRange then
    op := op ++ [Arg.int (← get).rangeLower]
    op := op ++ [Arg.int (← get).rangeUpper]
  if (← get).minInf ≠ "" then
    op := op ++ [Arg.str (← get).minInf]
  if (← get).maxInf ≠ "" then
    op := op ++ [Arg.str (← get).maxInf]
  return (op, none)

/-- Two calls of Build one after the other on the same pointer, as a caller
makes them: the second call runs on the record the first one leaves. -/
def BuildTwice (marshal : α → Except ε β) :
    StateM (Options α)
      ((List (Arg β) × Option (Err ε)) × (List (Arg β) × Option (Err ε))) := do
  let first ← BuildM marshal
  let second ← BuildM marshal
  return (first, second)

/-! ## Kinds of configuration functions -/

/-- The kind of a call: which of the twelve configuration functions it
calls, whatever the arguments. -/
def Call.kind : Call α → Nat
  | .withKey _ => 0
  | .withOldKey _ => 1
  | .withKeyValue _ => 2
  | .withCount _ => 3
  | .withData _ => 4
  | .withExpireSecond _ => 5
  | .withExpireMillisecond _ => 6
  | .withExist => 7
  | .withNotExist => 8
  | .withRange _ _ => 9
  | .withMinInf => 10
  | .withMaxInf => 11

/-! ## Auxiliary facts -/

theorem ite_append_one {γ : Type} (c : Prop) [Decidable c] (op l : List γ) :
    (if c then op ++ l else op) = op ++ (if c then l else []) := by
  split <;> simp

theorem ite_append_two {γ : Type} (c : Prop) [Decidable c] (op l k : List γ) :
    (if c then (op ++ l) ++ k else op) = op ++ (if c then l ++ k else []) := by
  split <;> simp

theorem and_true_eq_false_of_not {a b : Bool} (h : ¬ (a = true ∧ b = true)) :
    (a && b) = false := by
  cases a <;> cases b <;> simp_all

/-- Build stops with the first conflict error when both existence flags are set. -/
theorem Build_exist_conflict (marshal : α → Except ε β) (r : Options α)
    (he : r.exist = true) (hn : r.notExist = true) :
    Build marshal (some r) =
      ([], some (.errorf "Error invalid. Please choose exist or not exist, dont take all")) := by
  unfold Build
  simp only [he, hn, Bool.and_self, if_true]

/-- Build stops with the second conflict error when both expiry fields are positive. -/
theorem Build_expire_conflict (marshal : α → Except ε β) (r : Options α)
    (hexist : ¬ (r.exist = true ∧ r.notExist = true))
    (hs : r.expireSecond > 0) (hm : r.expireMilliSecond > 0) :
    Build marshal (some r) =
      ([], some (.errorf
        "Error invalid. Please choose expire with second or expire with millisecond, dont take all")) := by
  unfold Build
  simp only [and_true_eq_false_of_not hexist]
  rw [if_neg (by simp), if_pos ⟨hs, hm⟩]

/-- Without a conflict and without a payload, Build returns every segment. -/
theorem Build_no_data (marshal : α → Except ε β) (r : Options α)
    (hexist : ¬ (r.exist = true ∧ r.notExist = true))
    (hexpire : ¬ (r.expireSecond > 0 ∧ r.expireMilliSecond > 0))
    (hd : r.data = none) :
    Build marshal (some r) = (headArgs r ++ tailArgs r, none) := by
  unfold Build
  simp only [and_true_eq_false_of_not hexist]
  rw [if_neg (by simp), if_neg hexpire]
  simp only [hd, ite_append_one, ite_append_two, List.nil_append]
  simp only [headArgs, tailArgs, List.append_assoc, List.singleton_append, List.cons_append,
    List.nil_append, ExpireSecondsOption, ExpireMillisecondsOption, ExistOption, NotExitOption]

/-- Without a conflict and with a payload that encodes, Build returns every
segment with the encoded payload in its place. -/
theorem Build_data_ok (marshal : α → Except ε β) (r : Options α) (d : α) (raw : β)
    (hexist : ¬ (r.exist = true ∧ r.notExist = true))
    (hexpire : ¬ (r.expireSecond > 0 ∧ r.expireMilliSecond > 0))
    (hd : r.data = some d) (hm : marshal d = .ok raw) :
    Build marshal (some r) = (headArgs r ++ [Arg.raw raw] ++ tailArgs r, none) := by
  unfold Build
  simp only [and_true_eq_false_of_not hexist]
  rw [if_neg (by simp), if_neg hexpire]
  simp only [hd, hm, ite_append_one, ite_append_two, List.nil_append]
  simp only [headArgs, tailArgs, List.append_assoc, List.singleton_append, List.cons_append,
    List.nil_append, ExpireSecondsOption, ExpireMillisecondsOption, ExistOption, NotExitOption]

/-- Without a conflict and with a payload that does not encode, Build
returns the entries appended so far and the error of the encoder. -/
theorem Build_data_error (marshal : α → Except ε β) (r : Options α) (d : α) (e : ε)
    (hexist : ¬ (r.exist = true ∧ r.notExist = true))
    (hexpire : ¬ (r.expireSecond > 0 ∧ r.expireMilliSecond > 0))
    (hd : r.data = some d) (hm : marshal d = .error e) :
    Build marshal (some r) = (headArgs r, some (.cause e)) := by
  unfold Build
  simp only [and_true_eq_false_of_not hexist]
  rw [if_neg (by simp), if_neg hexpire]
  simp only [hd, hm, ite_append_one, List.nil_append]
  simp only [headArgs, List.append_assoc]

/-! ## Serialization order -/

/-- C1: for a record without an existence conflict and without an expiry
conflict, whose payload is unset (`payload = []`) or encodes to `raw`
(`payload = [raw]`), Build returns a nil error and the concatenation, in this
order, of the old key, key, count, key value, payload, `EX` segment, `PX`
segment, `XX`, `NX`, range bounds, min-infinity and max-infinity entries, each
present exactly when its condition holds. -/
theorem Build_serialization_order (marshal : α → Except ε β) (r : Options α)
    (payload : List (Arg β))
    (hexist : ¬ (r.exist = true ∧ r.notExist = true))
    (hexpire : ¬ (r.expireSecond > 0 ∧ r.expireMilliSecond > 0))
    (hdata : (r.data = none ∧ payload = []) ∨
      ∃ d raw, r.data = some d ∧ marshal d = .ok raw ∧ payload = [Arg.raw raw]) :
    Build marshal (some r) =
      ((if r.oldKey ≠ "" then [Arg.str r.oldKey] else []) ++
       (if r.key ≠ "" then [Arg.str r.key] else []) ++
       (if r.isCount = true then [Arg.int r.count] else []) ++
       (if r.keyValue ≠ "" then [Arg.str r.keyValue] else []) ++
       payload ++
       (if r.expireSecond > 0 then [Arg.str "EX", Arg.int64 r.expireSecond] else []) ++
       (if r.expireMilliSecond > 0 then [Arg.str "PX", Arg.int64 r.expireMilliSecond] else []) ++
       (if r.exist = true then [Arg.str "XX"] else []) ++
       (if r.notExist = true then [Arg.str "NX"] else []) ++
       (if r.isRange = true then [Arg.int r.rangeLower, Arg.int r.rangeUpper] else []) ++
       (if r.minInf ≠ "" then [Arg.str r.minInf] else []) ++
       (if r.maxInf ≠ "" then [Arg.str r.maxInf] else []), none) := by
  rcases hdata with ⟨hd, rfl⟩ | ⟨d, raw, hd, hm, rfl⟩
  · rw [Build_no_data marshal r hexist hexpire hd]
    simp only [headArgs, tailArgs, List.append_assoc, List.append_nil, List.nil_append]
  · rw [Build_data_ok marshal r d raw hexist hexpire hd hm]
    simp only [headArgs, tailArgs, List.append_assoc]

/-- The record with every field set builds to its twelve entries in order. -/
theorem Build_serialization_order_witness :
    ¬ (sampleFull.exist = true ∧ sampleFull.notExist = true) ∧
    ¬ (sampleFull.expireSecond > 0 ∧ sampleFull.expireMilliSecond > 0) ∧
    Build encodePayload (some sampleFull) =
      ([.str "o", .str "k", .int (-3), .str "f", .raw [116, 114, 117, 101], .str "PX",
        .int64 7, .str "NX", .int 5, .int 1, .str "-inf", .str "+inf"], none) :=
  ⟨by decide, by decide,
    (Build_serialization_order encodePayload sampleFull [Arg.raw [116, 114, 117, 101]]
      (by decide) (by decide) (Or.inr ⟨_, _, rfl, rfl, rfl⟩)).trans (by decide)⟩

/-! ## Errors of Build -/

/-- C2: Build returns a non-nil error exactly when both existence flags are
set, or both expiry fields are positive, or the payload is set and its
encoding fails.  In particular a payload that fails to encode always gives an
error, and a record without conflict whose payload is absent or encodable
builds with a nil error. -/
theorem Build_error_iff (marshal : α → Except ε β) (r : Options α) :
    ((Build marshal (some r)).2 ≠ none ↔
      ((r.exist = true ∧ r.notExist = true) ∨
       (r.expireSecond > 0 ∧ r.expireMilliSecond > 0) ∨
       ∃ d e, r.data = some d ∧ marshal d = .error e)) ∧
    (∀ d e, r.data = some d → marshal d = .error e → (Build marshal (some r)).2 ≠ none) ∧
    (¬ (r.exist = true ∧ r.notExist = true) →
      ¬ (r.expireSecond > 0 ∧ r.expireMilliSecond > 0) →
      (∀ d, r.data = some d → ∃ raw, marshal d = .ok raw) →
      (Build marshal (some r)).2 = none) := by
  have main : (Build marshal (some r)).2 ≠ none ↔
      ((r.exist = true ∧ r.notExist = true) ∨
       (r.expireSecond > 0 ∧ r.expireMilliSecond > 0) ∨
       ∃ d e, r.data = some d ∧ marshal d = .error e) := by
    by_cases hexist : r.exist = true ∧ r.notExist = true
    · rw [Build_exist_conflict marshal r hexist.1 hexist.2]
      simp [hexist]
    by_cases hexpire : r.expireSecond > 0 ∧ r.expireMilliSecond > 0
    · rw [Build_expire_conflict marshal r hexist hexpire.1 hexpire.2]
      simp [hexpire]
    cases hd : r.data with
    | none =>
      rw [Build_no_data marshal r hexist hexpire hd]
      simp [hexist, hexpire]
    | some d =>
      cases hm : marshal d with
      | error e =>
        rw [Build_data_error marshal r d e hexist hexpire hd hm]
        simp [hm]
      | ok raw =>
        rw [Build_data_ok marshal r d raw hexist hexpire hd hm]
        simp [hexist, hexpire, hm]
  refine ⟨main, ?_, ?_⟩
  · intro d e hd hm
    exact main.mpr (Or.inr (Or.inr ⟨d, e, hd, hm⟩))
  · intro hexist hexpire henc
    by_contra hne
    rcases main.mp hne with h | h | ⟨d, e, hd, hm⟩
    · exact hexist h
    · exact hexpire h
    · obtain ⟨raw, hraw⟩ := henc d hd
      rw [hm] at hraw
      exact absurd hraw (by simp)

/-- The record with a channel payload fails to build, and the record with a
boolean payload builds. -/
theorem Build_error_iff_witness :
    (Build encodePayload (some sampleChan)).2 ≠ none ∧
    (Build encodePayload (some sampleFull)).2 = none :=
  ⟨(Build_error_iff encodePayload sampleChan).2.1 Payload.chan _ rfl rfl,
   (Build_error_iff encodePayload sampleFull).2.2 (by decide) (by decide)
     (fun d hd => by
       have h : d = Payload.bool true := by
         have h2 : some (Payload.bool true) = some d := hd
         exact (Option.some.inj h2).symm
       subst h
       exact ⟨_, rfl⟩)⟩

/-! ## Conflicts -/

/-- No configuration function resets the `exist` flag. -/
theorem run_exist_of_exist (c : Call α) (r : Options α) (h : r.exist = true) :
    (c.run r).exist = true := by
  cases c <;>
    simp only [Call.run, WithKey, WithOldKey, WithKeyValue, WithCount, WithData,
      WithExpireSecond, WithExpireMillisecond, WithExist, WithNotExist, WithRange, WithMinInf,
      WithMaxInf, Options.setKey, Options.setOldKey, Options.setKeyValue, Options.setIsCount,
      Options.setCount, Options.setData, Options.setExpireS, Options.setExpireM,
      Options.setExist, Options.setNotExist, Options.setIsRange, Options.setRange] <;>
    first | exact h | rfl | (split <;> exact h)

/-- No configuration function resets the `notExist` flag. -/
theorem run_notExist_of_notExist (c : Call α) (r : Options α) (h : r.notExist = true) :
    (c.run r).notExist = true := by
  cases c <;>
    simp only [Call.run, WithKey, WithOldKey, WithKeyValue, WithCount, WithData,
      WithExpireSecond, WithExpireMillisecond, WithExist, WithNotExist, WithRange, WithMinInf,
      WithMaxInf, Options.setKey, Options.setOldKey, Options.setKeyValue, Options.setIsCount,
      Options.setCount, Options.setData, Options.setExpireS, Options.setExpireM,
      Options.setExist, Options.setNotExist, Options.setIsRange, Options.setRange] <;>
    first | exact h | rfl | (split <;> exact h)

theorem applyAll_exist_of_exist (calls : List (Call α)) (r : Options α)
    (h : r.exist = true) : (applyAll calls r).exist = true := by
  induction calls generalizing r with
  | nil => exact h
  | cons c cs ih => exact ih (c.run r) (run_exist_of_exist c r h)

theorem applyAll_notExist_of_notExist (calls : List (Call α)) (r : Options α)
    (h : r.notExist = true) : (applyAll calls r).notExist = true := by
  induction calls generalizing r with
  | nil => exact h
  | cons c cs ih => exact ih (c.run r) (run_notExist_of_notExist c r h)

theorem applyAll_exist_of_mem (calls : List (Call α)) (r : Options α)
    (h : Call.withExist ∈ calls) : (applyAll calls r).exist = true := by
  induction calls generalizing r with
  | nil => cases h
  | cons c cs ih =>
    rcases List.mem_cons.mp h with hc | hc
    · subst hc
      exact applyAll_exist_of_exist cs _ rfl
    · exact ih (c.run r) hc

theorem applyAll_notExist_of_mem (calls : List (Call α)) (r : Options α)
    (h : Call.withNotExist ∈ calls) : (applyAll calls r).notExist = true := by
  induction calls generalizing r with
  | nil => cases h
  | cons c cs ih =>
    rcases List.mem_cons.mp h with hc | hc
    · subst hc
      exact applyAll_notExist_of_notExist cs _ rfl
    · exact ih (c.run r) hc

/-- C3: when a sequence of configuration functions applied to a fresh record
contains both WithExist and WithNotExist, at any positions and among any
other calls, Build returns the existence-conflict error and no arguments. -/
theorem Build_conflict_of_exist_and_notExist (marshal : α → Except ε β)
    (calls : List (Call α)) (hexist : Call.withExist ∈ calls)
    (hnot : Call.withNotExist ∈ calls) :
    Build marshal (some (applyAll calls NewCommandOptions)) =
      ([], some (.errorf "Error invalid. Please choose exist or not exist, dont take all")) :=
  Build_exist_conflict marshal _ (applyAll_exist_of_mem calls _ hexist)
    (applyAll_notExist_of_mem calls _ hnot)

/-- WithNotExist, an unencodable payload and WithExist, in this order among
other calls: the conflict is reported and nothing is returned. -/
theorem Build_conflict_of_exist_and_notExist_witness :
    Build encodePayload (some (applyAll
        [.withKey "k", .withNotExist, .withData (some .chan), .withExist, .withCount 1]
        NewCommandOptions)) =
      ([], some (.errorf "Error invalid. Please choose exist or not exist, dont take all")) :=
  Build_conflict_of_exist_and_notExist encodePayload _ (by decide) (by decide)

/-- C4: after WithExpireSecond n and WithExpireMillisecond m with n and m
positive, applied to any record in either order, Build returns a conflict
error (made by `fmt.Errorf`) and no arguments. -/
theorem Build_conflict_of_both_expiries (marshal : α → Except ε β) (r : Options α)
    (n m : Int) (hn : n > 0) (hm : m > 0) :
    (∃ msg, Build marshal (some (WithExpireMillisecond m (WithExpireSecond n r))) =
      ([], some (.errorf msg))) ∧
    (∃ msg, Build marshal (some (WithExpireSecond n (WithExpireMillisecond m r))) =
      ([], some (.errorf msg))) := by
  have hn1 : n > -1 := by omega
  have hm1 : m > -1 := by omega
  have key : ∀ r' : Options α, r'.expireSecond > 0 → r'.expireMilliSecond > 0 →
      ∃ msg, Build marshal (some r') = ([], some (.errorf msg)) := by
    intro r' hs hms
    by_cases hexist : r'.exist = true ∧ r'.notExist = true
    · exact ⟨_, Build_exist_conflict marshal r' hexist.1 hexist.2⟩
    · exact ⟨_, Build_expire_conflict marshal r' hexist hs hms⟩
  constructor
  · apply key <;>
      simp only [WithExpireMillisecond, WithExpireSecond, Options.setExpireM,
        Options.setExpireS, if_pos hn1, if_pos hm1] <;> assumption
  · apply key <;>
      simp only [WithExpireMillisecond, WithExpireSecond, Options.setExpireM,
        Options.setExpireS, if_pos hn1, if_pos hm1] <;> assumption

/-- Ten seconds and five hundred milliseconds on a fresh record. -/
theorem Build_conflict_of_both_expiries_witness :
    (∃ msg, Build encodePayload
      (some (WithExpireMillisecond 500 (WithExpireSecond 10 NewCommandOptions))) =
      ([], some (.errorf msg))) ∧
    (∃ msg, Build encodePayload
      (some (WithExpireSecond 10 (WithExpireMillisecond 500 NewCommandOptions))) =
      ([], some (.errorf msg))) :=
  Build_conflict_of_both_expiries encodePayload NewCommandOptions 10 500 (by decide) (by decide)

/-- C5: without an existence or expiry conflict, when the payload is set and
the encoder fails with `e`, Build returns `e` itself together with the
entries that precede the payload in the order (old key, key, count, key
value, each when present) and nothing else. -/
theorem Build_encoding_error (marshal : α → Except ε β) (r : Options α) (d : α) (e : ε)
    (hexist : ¬ (r.exist = true ∧ r.notExist = true))
    (hexpire : ¬ (r.expireSecond > 0 ∧ r.expireMilliSecond > 0))
    (hd : r.data = some d) (hm : marshal d = .error e) :
    Build marshal (some r) =
      ((if r.oldKey ≠ "" then [Arg.str r.oldKey] else []) ++
       (if r.key ≠ "" then [Arg.str r.key] else []) ++
       (if r.isCount = true then [Arg.int r.count] else []) ++
       (if r.keyValue ≠ "" then [Arg.str r.keyValue] else []), some (.cause e)) := by
  rw [Build_data_error marshal r d e hexist hexpire hd hm]
  rfl

/-- The record with a channel payload, an expiry, `exist`, a range and a
min-infinity sentinel returns only its key, count and key value. -/
theorem Build_encoding_error_witness :
    Build encodePayload (some sampleChan) =
      ([.str "k", .int 2, .str "f"], some (.cause "json: unsupported type: chan int")) :=
  (Build_encoding_error encodePayload sampleChan .chan "json: unsupported type: chan int"
    (by decide) (by decide) rfl rfl).trans (by decide)

/-! ## Presence of fields under the configuration functions -/

/-- WithCount stores the count and flips the presence flag. -/
theorem WithCount_fields (n : Int) (r : Options α) :
    (WithCount n r).isCount = (!r.isCount) ∧ (WithCount n r).count = n :=
  ⟨rfl, rfl⟩

/-- C6: a second WithCount on the same record clears the presence flag that
the first one set, and Build then emits no count entry, although the count
itself is stored. -/
theorem WithCount_twice_clears_isCount :
    (WithCount 1 (NewCommandOptions : Options Payload)).isCount = true ∧
    (WithCount 2 (WithCount 1 (NewCommandOptions : Options Payload))).isCount = false ∧
    (WithCount 2 (WithCount 1 (NewCommandOptions : Options Payload))).count = 2 ∧
    Build encodePayload (some (WithCount 1 NewCommandOptions)) = ([.int 1], none) ∧
    Build encodePayload (some (WithCount 2 (WithCount 1 NewCommandOptions))) = ([], none) := by
  decide

/-- C7, as stated, fails: WithExpireSecond 0 passes the guard `exp > -1` and
stores 0 over a positive expiry. -/
theorem WithExpireSecond_zero_unsets_expiry :
    (WithExpireSecond 30 (NewCommandOptions : Options Payload)).expireSecond = 30 ∧
    ((Call.withExpireSecond 0).run
      (WithExpireSecond 30 (NewCommandOptions : Options Payload))).expireSecond = 0 ∧
    ¬ StillSet (WithExpireSecond 30 (NewCommandOptions : Options Payload))
      ((Call.withExpireSecond 0).run (WithExpireSecond 30 NewCommandOptions)) := by
  refine ⟨rfl, rfl, ?_⟩
  intro h
  have h2 := h.2.2.2.2.2.2.2.2.2.2.1
  exact absurd (h2 (by decide)) (by decide)

/-- Field by field: what each configuration function keeps set, with the
calls that may unset a field named in the premise of that field. -/
theorem run_keeps_set_fields (c : Call α) (r : Options α) :
    (r.key ≠ "" → (c.run r).key ≠ "") ∧
    (r.oldKey ≠ "" → (c.run r).oldKey ≠ "") ∧
    (r.keyValue ≠ "" → (c.run r).keyValue ≠ "") ∧
    (r.minInf ≠ "" → (c.run r).minInf ≠ "") ∧
    (r.maxInf ≠ "" → (c.run r).maxInf ≠ "") ∧
    (r.data ≠ none → (c.run r).data ≠ none) ∧
    (r.exist = true → (c.run r).exist = true) ∧
    (r.notExist = true → (c.run r).notExist = true) ∧
    (r.isRange = true → (c.run r).isRange = true) ∧
    ((∀ n, c ≠ .withCount n) → r.isCount = true → (c.run r).isCount = true) ∧
    (c ≠ .withExpireSecond 0 → 0 < r.expireSecond → 0 < (c.run r).expireSecond) ∧
    (c ≠ .withExpireMillisecond 0 → 0 < r.expireMilliSecond →
      0 < (c.run r).expireMilliSecond) := by
  cases c <;>
    simp only [Call.run, WithKey, WithOldKey, WithKeyValue, WithCount, WithData,
      WithExpireSecond, WithExpireMillisecond, WithExist, WithNotExist, WithRange, WithMinInf,
      WithMaxInf, Options.setKey, Options.setOldKey, Options.setKeyValue, Options.setIsCount,
      Options.setCount, Options.setData, Options.setExpireS, Options.setExpireM,
      Options.setExist, Options.setNotExist, Options.setIsRange, Options.setRange]
  case withKey k => split <;> simp_all
  case withOldKey k => split <;> simp_all
  case withKeyValue k => split <;> simp_all
  case withData d => split <;> simp_all
  case withExpireSecond e =>
    split <;> simp_all
    omega
  case withExpireMillisecond e =>
    split <;> simp_all
    omega
  all_goals simp_all


/-- C7, amended: every configuration function keeps every set field set,
except that WithExpireSecond 0 and WithExpireMillisecond 0 store 0 in their
own expiry field (and keep every other set field set); for WithCount the
statement covers every field other than the presence flag of the count,
which is masked on both sides. -/
theorem set_fields_stay_set (c : Call α) (r : Options α) :
    ((∀ n, c ≠ .withCount n) → c ≠ .withExpireSecond 0 → c ≠ .withExpireMillisecond 0 →
      StillSet r (c.run r)) ∧
    (∀ n, c = .withCount n →
      StillSet { r with isCount := false } { c.run r with isCount := false }) ∧
    (c = .withExpireSecond 0 →
      (c.run r).expireSecond = 0 ∧ StillSet { r with expireSecond := 0 } (c.run r)) ∧
    (c = .withExpireMillisecond 0 →
      (c.run r).expireMilliSecond = 0 ∧
      StillSet { r with expireMilliSecond := 0 } (c.run r)) := by
  obtain ⟨h1, h2, h3, h4, h5, h6, h7, h8, h9, h10, h11, h12⟩ := run_keeps_set_fields c r
  refine ⟨fun hc hs hm => ⟨h1, h2, h3, h4, h5, h6, h10 hc, h7, h8, h9, h11 hs, h12 hm⟩, ?_, ?_, ?_⟩
  · intro n hn
    subst hn
    exact ⟨h1, h2, h3, h4, h5, h6, by simp, h7, h8, h9, h11 (by simp), h12 (by simp)⟩
  · intro hc
    subst hc
    exact ⟨rfl, h1, h2, h3, h4, h5, h6, h10 (by simp), h7, h8, h9, by simp, h12 (by simp)⟩
  · intro hc
    subst hc
    exact ⟨rfl, h1, h2, h3, h4, h5, h6, h10 (by simp), h7, h8, h9, h11 (by simp), by simp⟩

/-- A key change on the record with every field set keeps all of them set; a
WithCount keeps the others set; WithExpireMillisecond 0 resets the expiry of
that record to 0. -/
theorem set_fields_stay_set_witness :
    StillSet sampleFull ((Call.withKey "b").run sampleFull) ∧
    StillSet { sampleFull with isCount := false }
      { (Call.withCount 4).run sampleFull with isCount := false } ∧
    ((Call.withExpireMillisecond 0).run sampleFull).expireMilliSecond = 0 :=
  ⟨(set_fields_stay_set (.withKey "b") sampleFull).1 (fun _ h => by cases h)
      (fun h => by cases h) (fun h => by cases h),
   (set_fields_stay_set (.withCount 4) sampleFull).2.1 4 rfl,
   ((set_fields_stay_set (.withExpireMillisecond 0) sampleFull).2.2.2 rfl).1⟩

/-! ## Rejected input -/

/-- C8: an empty key, old key or key value and a nil payload are dropped
without a trace: the record is unchanged, so Build returns what it returned
before, and on a fresh record Build returns an empty list and a nil error. -/
theorem rejected_input_leaves_record (marshal : α → Except ε β) (r : Options α) :
    WithKey "" r = r ∧ WithOldKey "" r = r ∧ WithKeyValue "" r = r ∧ WithData none r = r ∧
    Build marshal (some (WithKey "" r)) = Build marshal (some r) ∧
    Build marshal (some (WithOldKey "" r)) = Build marshal (some r) ∧
    Build marshal (some (WithKeyValue "" r)) = Build marshal (some r) ∧
    Build marshal (some (WithData none r)) = Build marshal (some r) ∧
    Build marshal (some (WithKey "" (NewCommandOptions : Options α))) = ([], none) := by
  have h1 : WithKey "" r = r := rfl
  have h2 : WithOldKey "" r = r := rfl
  have h3 : WithKeyValue "" r = r := rfl
  have h4 : WithData none r = r := rfl
  refine ⟨h1, h2, h3, h4, by rw [h1], by rw [h2], by rw [h3], by rw [h4], ?_⟩
  have h5 : WithKey "" (NewCommandOptions : Options α) = NewCommandOptions := rfl
  rw [h5, Build_no_data marshal NewCommandOptions (by simp [NewCommandOptions])
    (by simp [NewCommandOptions]) rfl]
  simp [headArgs, tailArgs, NewCommandOptions]

/-! ## Expiry values -/

theorem run_expiry_nonneg (c : Call α) (r : Options α)
    (h : 0 ≤ r.expireSecond ∧ 0 ≤ r.expireMilliSecond) :
    0 ≤ (c.run r).expireSecond ∧ 0 ≤ (c.run r).expireMilliSecond := by
  cases c <;>
    simp only [Call.run, WithKey, WithOldKey, WithKeyValue, WithCount, WithData,
      WithExpireSecond, WithExpireMillisecond, WithExist, WithNotExist, WithRange, WithMinInf,
      WithMaxInf, Options.setKey, Options.setOldKey, Options.setKeyValue, Options.setIsCount,
      Options.setCount, Options.setData, Options.setExpireS, Options.setExpireM,
      Options.setExist, Options.setNotExist, Options.setIsRange, Options.setRange]
  case withKey k => split <;> exact h
  case withOldKey k => split <;> exact h
  case withKeyValue k => split <;> exact h
  case withData d => split <;> exact h
  case withExpireSecond e =>
    split <;> simp_all
    omega
  case withExpireMillisecond e =>
    split <;> simp_all
    omega
  all_goals exact h

theorem applyAll_expiry_nonneg (calls : List (Call α)) (r : Options α)
    (h : 0 ≤ r.expireSecond ∧ 0 ≤ r.expireMilliSecond) :
    0 ≤ (applyAll calls r).expireSecond ∧ 0 ≤ (applyAll calls r).expireMilliSecond := by
  induction calls generalizing r with
  | nil => exact h
  | cons c cs ih => exact ih (c.run r) (run_expiry_nonneg c r h)

theorem int64_not_mem_headArgs (r : Options α) (v : Int) :
    Arg.int64 v ∉ (headArgs r : List (Arg β)) := by
  simp only [headArgs, List.mem_append, not_or]
  refine ⟨⟨⟨?_, ?_⟩, ?_⟩, ?_⟩ <;> split <;> simp

theorem int64_mem_tailArgs (r : Options α) (v : Int)
    (h : Arg.int64 v ∈ (tailArgs r : List (Arg β))) : 0 < v := by
  simp only [tailArgs, List.mem_append] at h
  rcases h with (((((h | h) | h) | h) | h) | h) | h <;> split at h <;> simp at h
  · exact h ▸ (by assumption)
  · exact h ▸ (by assumption)

/-- C9: a negative expiry leaves the record unchanged and a non-negative one
is stored; hence both expiry fields are non-negative in every reachable
record, and every `int64` entry of the list Build returns (the expiry values
emitted after `EX` and `PX` are its only `int64` entries) is strictly
positive. -/
theorem expiry_never_negative (marshal : α → Except ε β) (r : Options α) (n v : Int) :
    (n < 0 → WithExpireSecond n r = r ∧ WithExpireMillisecond n r = r) ∧
    (0 ≤ n → (WithExpireSecond n r).expireSecond = n ∧
      (WithExpireMillisecond n r).expireMilliSecond = n) ∧
    (Reachable r → 0 ≤ r.expireSecond ∧ 0 ≤ r.expireMilliSecond) ∧
    (Arg.int64 v ∈ (Build marshal (some r)).1 → 0 < v) := by
  refine ⟨?_, ?_, ?_, ?_⟩
  · intro hn
    have h : ¬ n > -1 := by omega
    simp only [WithExpireSecond, WithExpireMillisecond, Options.setExpireS,
      Options.setExpireM, if_neg h, and_self]
  · intro hn
    have h : n > -1 := by omega
    simp only [WithExpireSecond, WithExpireMillisecond, Options.setExpireS,
      Options.setExpireM, if_pos h, and_self]
  · rintro ⟨calls, rfl⟩
    exact applyAll_expiry_nonneg calls NewCommandOptions ⟨le_refl _, le_refl _⟩
  · intro hv
    by_cases hexist : r.exist = true ∧ r.notExist = true
    · rw [Build_exist_conflict marshal r hexist.1 hexist.2] at hv
      cases hv
    by_cases hexpire : r.expireSecond > 0 ∧ r.expireMilliSecond > 0
    · rw [Build_expire_conflict marshal r hexist hexpire.1 hexpire.2] at hv
      cases hv
    cases hd : r.data with
    | none =>
      rw [Build_no_data marshal r hexist hexpire hd] at hv
      rcases List.mem_append.mp hv with h | h
      · exact absurd h (int64_not_mem_headArgs r v)
      · exact int64_mem_tailArgs r v h
    | some d =>
      cases hm : marshal d with
      | error e =>
        rw [Build_data_error marshal r d e hexist hexpire hd hm] at hv
        exact absurd hv (int64_not_mem_headArgs r v)
      | ok raw =>
        rw [Build_data_ok marshal r d raw hexist hexpire hd hm] at hv
        rcases List.mem_append.mp hv with h | h
        · rcases List.mem_append.mp h with h | h
          · exact absurd h (int64_not_mem_headArgs r v)
          · simp at h
        · exact int64_mem_tailArgs r v h

/-- A rejected negative expiry, a stored one, a reachable record and the
`PX 7` of the record with every field set. -/
theorem expiry_never_negative_witness :
    WithExpireSecond (-5) sampleChan = sampleChan ∧
    (WithExpireMillisecond 7 sampleChan).expireMilliSecond = 7 ∧
    0 ≤ (applyAll [.withExpireSecond (-5), .withExpireMillisecond 7]
      (NewCommandOptions : Options Payload)).expireSecond ∧
    (0 : Int) < 7 :=
  ⟨((expiry_never_negative encodePayload sampleChan (-5) 0).1 (by decide)).1,
   ((expiry_never_negative encodePayload sampleChan 7 0).2.1 (by decide)).2,
   ((expiry_never_negative encodePayload _ 0 0).2.2.1 ⟨_, rfl⟩).1,
   (expiry_never_negative encodePayload sampleFull 0 7).2.2.2 (by decide)⟩

/-! ## Examples of the specification -/

/-- C10: WithKey k with a non-empty k and then WithExpireSecond n with a
positive n, on a fresh record, build to `[k, "EX", n]` with a nil error;
WithKey k alone builds to `[k]`. -/
theorem Build_key_then_expire (marshal : α → Except ε β) (k : String) (n : Int)
    (hk : k ≠ "") (hn : n > 0) :
    Build marshal (some (WithExpireSecond n (WithKey k NewCommandOptions))) =
      ([Arg.str k, Arg.str "EX", Arg.int64 n], none) ∧
    Build marshal (some (WithKey k NewCommandOptions)) = ([Arg.str k], none) := by
  have hn1 : n > -1 := by omega
  have hn0 : ¬ n ≤ 0 := by omega
  have h1 : WithKey k (NewCommandOptions : Options α) =
      { (NewCommandOptions : Options α) with key := k } := by
    simp only [WithKey, Options.setKey, if_pos hk]
  have h2 : WithExpireSecond n (WithKey k (NewCommandOptions : Options α)) =
      { (NewCommandOptions : Options α) with key := k, expireSecond := n } := by
    simp only [h1, WithExpireSecond, Options.setExpireS, if_pos hn1]
  constructor
  · rw [h2, Build_no_data marshal _ (by simp [NewCommandOptions])
      (by simp [NewCommandOptions]) rfl]
    simp [headArgs, tailArgs, NewCommandOptions, hk, hn]
  · rw [h1, Build_no_data marshal _ (by simp [NewCommandOptions])
      (by simp [NewCommandOptions]) rfl]
    simp [headArgs, tailArgs, NewCommandOptions, hk]

/-- The key `foo` with ten seconds gives `["foo", "EX", 10]`, and alone
`["foo"]`. -/
theorem Build_key_then_expire_witness :
    Build encodePayload (some (WithExpireSecond 10 (WithKey "foo" NewCommandOptions))) =
      ([Arg.str "foo", Arg.str "EX", Arg.int64 10], none) ∧
    Build encodePayload (some (WithKey "foo" NewCommandOptions)) = ([Arg.str "foo"], none) :=
  Build_key_then_expire encodePayload "foo" 10 (by decide) (by decide)

/-- C11: WithRange lower upper, WithMinInf and WithMaxInf on a fresh record
build to `[lower, upper, "-inf", "+inf"]` with a nil error, for all integers
lower and upper, whichever of the two is the larger. -/
theorem Build_range_with_infinities (marshal : α → Except ε β) (lower upper : Int) :
    Build marshal (some (WithMaxInf (WithMinInf (WithRange lower upper NewCommandOptions)))) =
      ([Arg.int lower, Arg.int upper, Arg.str "-inf", Arg.str "+inf"], none) := by
  have h : WithMaxInf (WithMinInf (WithRange lower upper (NewCommandOptions : Options α))) =
      { (NewCommandOptions : Options α) with
        isRange := true, rangeLower := lower, rangeUpper := upper,
        minInf := "-inf", maxInf := "+inf" } := rfl
  rw [h, Build_no_data marshal _ (by simp [NewCommandOptions])
    (by simp [NewCommandOptions]) rfl]
  simp [headArgs, tailArgs, NewCommandOptions]

/-- The range from 1 to 5, and the reversed range from 5 to 1. -/
theorem Build_range_with_infinities_witness :
    Build encodePayload (some (WithMaxInf (WithMinInf (WithRange 1 5 NewCommandOptions)))) =
      ([Arg.int 1, Arg.int 5, Arg.str "-inf", Arg.str "+inf"], none) ∧
    Build encodePayload (some (WithMaxInf (WithMinInf (WithRange 5 1 NewCommandOptions)))) =
      ([Arg.int 5, Arg.int 1, Arg.str "-inf", Arg.str "+inf"], none) :=
  ⟨Build_range_with_infinities encodePayload 1 5, Build_range_with_infinities encodePayload 5 1⟩

/-- C12: Build on a nil record returns an empty list and a nil error. -/
theorem Build_nil (marshal : α → Except ε β) :
    Build marshal (none : Option (Options α)) = ([], none) := rfl

/-! ## Build does not write to its receiver -/

section Stages

variable {σ γ δ : Type}

theorem run_if_read_append (c : σ → Prop) [DecidablePred c] (x : σ → γ)
    (J : List γ → PUnit → StateM σ δ) (op : List γ) (s : σ) :
    StateT.run ((do
      let o ← get
      if c o then do
        let o2 ← get
        let op2 : List γ := op ++ [x o2]
        let y ← pure PUnit.unit
        J op2 y
      else do
        let y ← pure PUnit.unit
        J op y) : StateM σ δ) s =
    StateT.run (J (op ++ if c s then [x s] else []) PUnit.unit) s := by
  by_cases h : c s
  · rw [if_pos h]
    show StateT.run (if c s then _ else _) s = _
    rw [if_pos h]
    rfl
  · rw [if_neg h, List.append_nil]
    show StateT.run (if c s then _ else _) s = _
    rw [if_neg h]
    rfl

theorem run_if_append (c : σ → Prop) [DecidablePred c] (k : γ)
    (J : List γ → PUnit → StateM σ δ) (op : List γ) (s : σ) :
    StateT.run ((do
      let o ← get
      if c o then do
        let y ← pure PUnit.unit
        J (op ++ [k]) y
      else do
        let y ← pure PUnit.unit
        J op y) : StateM σ δ) s =
    StateT.run (J (op ++ if c s then [k] else []) PUnit.unit) s := by
  by_cases h : c s
  · rw [if_pos h]
    show StateT.run (if c s then _ else _) s = _
    rw [if_pos h]
    rfl
  · rw [if_neg h, List.append_nil]
    show StateT.run (if c s then _ else _) s = _
    rw [if_neg h]
    rfl

theorem run_if_append_read_append (c : σ → Prop) [DecidablePred c] (k : γ) (x : σ → γ)
    (J : List γ → PUnit → StateM σ δ) (op : List γ) (s : σ) :
    StateT.run ((do
      let o ← get
      if c o then do
        let o2 ← get
        let op2 : List γ := (op ++ [k]) ++ [x o2]
        let y ← pure PUnit.unit
        J op2 y
      else do
        let y ← pure PUnit.unit
        J op y) : StateM σ δ) s =
    StateT.run (J (op ++ if c s then [k, x s] else []) PUnit.unit) s := by
  by_cases h : c s
  · rw [if_pos h]
    show StateT.run (if c s then _ else _) s = _
    rw [if_pos h]
    show StateT.run (J ((op ++ [k]) ++ [x s]) PUnit.unit) s = _
    rw [List.append_assoc]
    rfl
  · rw [if_neg h, List.append_nil]
    show StateT.run (if c s then _ else _) s = _
    rw [if_neg h]
    rfl

theorem run_if_read_append_read_append (c : σ → Prop) [DecidablePred c] (x z : σ → γ)
    (J : List γ → PUnit → StateM σ δ) (op : List γ) (s : σ) :
    StateT.run ((do
      let o ← get
      if c o then do
        let o2 ← get
        let op2 : List γ := op ++ [x o2]
        let o3 ← get
        let op3 : List γ := op2 ++ [z o3]
        let y ← pure PUnit.unit
        J op3 y
      else do
        let y ← pure PUnit.unit
        J op y) : StateM σ δ) s =
    StateT.run (J (op ++ if c s then [x s, z s] else []) PUnit.unit) s := by
  by_cases h : c s
  · rw [if_pos h]
    show StateT.run (if c s then _ else _) s = _
    rw [if_pos h]
    show StateT.run (J ((op ++ [x s]) ++ [z s]) PUnit.unit) s = _
    rw [List.append_assoc]
    rfl
  · rw [if_neg h, List.append_nil]
    show StateT.run (if c s then _ else _) s = _
    rw [if_neg h]
    rfl

theorem run_guard (c : σ → σ → Prop) [∀ a b, Decidable (c a b)] (v : δ)
    (J : List γ → PUnit → StateM σ δ) (op : List γ) (s : σ) :
    StateT.run ((do
      let a ← get
      let b ← get
      if c a b then pure v
      else do
        let y ← pure PUnit.unit
        J op y) : StateM σ δ) s =
    if c s s then (v, s) else StateT.run (J op PUnit.unit) s := by
  by_cases h : c s s
  · rw [if_pos h]
    show StateT.run (if c s s then _ else _) s = _
    rw [if_pos h]
    rfl
  · rw [if_neg h]
    show StateT.run (if c s s then _ else _) s = _
    rw [if_neg h]
    rfl

end Stages

theorem run_payload (marshal : α → Except ε β)
    (J : List (Arg β) → PUnit → StateM (Options α) (List (Arg β) × Option (Err ε)))
    (op : List (Arg β)) (r : Options α) :
    StateT.run ((do
      let o ← get
      if let some d := o.data then
        match marshal d with
        | .error err => pure (op, some (Err.cause err))
        | .ok raw =>
          let op2 := op ++ [Arg.raw raw]
          do
          let y ← pure PUnit.unit
          J op2 y
      else do
        let y ← pure PUnit.unit
        J op y) : StateM (Options α) (List (Arg β) × Option (Err ε))) r =
    (match r.data with
      | none => StateT.run (J op PUnit.unit) r
      | some d =>
        match marshal d with
        | .error err => ((op, some (Err.cause err)), r)
        | .ok raw => StateT.run (J (op ++ [Arg.raw raw]) PUnit.unit) r) := by
  show StateT.run (match r.data with
      | some d => _
      | _ => _) r = _
  cases r.data with
  | none => rfl
  | some d =>
    show StateT.run (match marshal d with
      | .error err => _
      | .ok raw => _) r =
      (match marshal d with
        | .error err => ((op, some (Err.cause err)), r)
        | .ok raw => StateT.run (J (op ++ [Arg.raw raw]) PUnit.unit) r)
    cases marshal d <;> rfl


/-- Run on a record, the stateful Build returns what the pure `Build` returns
and leaves the record as it was. -/
theorem BuildM_run (marshal : α → Except ε β) (r : Options α) :
    (BuildM marshal).run r = (Build marshal (some r), r) := by
  unfold BuildM
  lift_lets
  intro op jEnd jMax jMin jRange jNX jXX jPX jEX jData jKV jCount jKey jOld jExp
  have hEnd : ∀ op, (jEnd op PUnit.unit).run r = ((op, none), r) := fun _ => rfl
  have hMax : ∀ op, (jMax op PUnit.unit).run r = (jEnd _ PUnit.unit).run r := fun op =>
    run_if_read_append (fun o => o.maxInf ≠ "") (fun o => Arg.str o.maxInf) jEnd op r
  have hMin : ∀ op, (jMin op PUnit.unit).run r = (jMax _ PUnit.unit).run r := fun op =>
    run_if_read_append (fun o => o.minInf ≠ "") (fun o => Arg.str o.minInf) jMax op r
  have hRange : ∀ op, (jRange op PUnit.unit).run r = (jMin _ PUnit.unit).run r := fun op =>
    run_if_read_append_read_append (fun o => o.isRange = true)
      (fun o => Arg.int o.rangeLower) (fun o => Arg.int o.rangeUpper) jMin op r
  have hNX : ∀ op, (jNX op PUnit.unit).run r = (jRange _ PUnit.unit).run r := fun op =>
    run_if_append (fun o => o.notExist = true) (Arg.str NotExitOption) jRange op r
  have hXX : ∀ op, (jXX op PUnit.unit).run r = (jNX _ PUnit.unit).run r := fun op =>
    run_if_append (fun o => o.exist = true) (Arg.str ExistOption) jNX op r
  have hPX : ∀ op, (jPX op PUnit.unit).run r = (jXX _ PUnit.unit).run r := fun op =>
    run_if_append_read_append (fun o => o.expireMilliSecond > 0)
      (Arg.str ExpireMillisecondsOption) (fun o => Arg.int64 o.expireMilliSecond) jXX op r
  have hEX : ∀ op, (jEX op PUnit.unit).run r = (jPX _ PUnit.unit).run r := fun op =>
    run_if_append_read_append (fun o => o.expireSecond > 0)
      (Arg.str ExpireSecondsOption) (fun o => Arg.int64 o.expireSecond) jPX op r
  have hData : ∀ op, (jData op PUnit.unit).run r =
      (match r.data with
        | none => StateT.run (jEX op PUnit.unit) r
        | some d =>
          match marshal d with
          | .error err => ((op, some (Err.cause err)), r)
          | .ok raw => StateT.run (jEX (op ++ [Arg.raw raw]) PUnit.unit) r) :=
    fun op => run_payload marshal jEX op r
  have hKV : ∀ op, (jKV op PUnit.unit).run r = (jData _ PUnit.unit).run r := fun op =>
    run_if_read_append (fun o => o.keyValue ≠ "") (fun o => Arg.str o.keyValue) jData op r
  have hCount : ∀ op, (jCount op PUnit.unit).run r = (jKV _ PUnit.unit).run r := fun op =>
    run_if_read_append (fun o => o.isCount = true) (fun o => Arg.int o.count) jKV op r
  have hKey : ∀ op, (jKey op PUnit.unit).run r = (jCount _ PUnit.unit).run r := fun op =>
    run_if_read_append (fun o => o.key ≠ "") (fun o => Arg.str o.key) jCount op r
  have hOld : ∀ op, (jOld op PUnit.unit).run r = (jKey _ PUnit.unit).run r := fun op =>
    run_if_read_append (fun o => o.oldKey ≠ "") (fun o => Arg.str o.oldKey) jKey op r
  have hExp : (jExp op PUnit.unit).run r =
      if r.expireSecond > 0 ∧ r.expireMilliSecond > 0 then
        ((([] : List (Arg β)), some (Err.errorf
          "Error invalid. Please choose expire with second or expire with millisecond, dont take all")),
          r)
      else (jOld op PUnit.unit).run r :=
    run_guard (fun a b : Options α => a.expireSecond > 0 ∧ b.expireMilliSecond > 0) _ jOld op r
  have hTop := run_guard (fun a b : Options α => (a.exist && b.notExist) = true)
    (([] : List (Arg β)), some (Err.errorf
      "Error invalid. Please choose exist or not exist, dont take all" : Err ε))
    jExp op r
  have hop : op = [] := rfl
  have hTail : ∀ op, (jEX op PUnit.unit).run r = ((op ++ tailArgs r, none), r) := by
    intro op
    rw [hEX, hPX, hXX, hNX, hRange, hMin, hMax, hEnd]
    simp only [tailArgs, List.append_assoc, ExpireSecondsOption, ExpireMillisecondsOption,
      ExistOption, NotExitOption]
  have hHead : (jOld op PUnit.unit).run r = (jData (headArgs r) PUnit.unit).run r := by
    rw [hOld, hKey, hCount, hKV, hop]
    simp only [headArgs, List.nil_append, List.append_assoc]
  refine hTop.trans ?_
  by_cases hexist : r.exist = true ∧ r.notExist = true
  · rw [if_pos (by simp [hexist.1, hexist.2]), Build_exist_conflict marshal r hexist.1 hexist.2]
  rw [if_neg (by simpa using hexist), hExp]
  by_cases hexpire : r.expireSecond > 0 ∧ r.expireMilliSecond > 0
  · rw [if_pos hexpire, Build_expire_conflict marshal r hexist hexpire.1 hexpire.2]
  rw [if_neg hexpire, hHead, hData]
  cases hd : r.data with
  | none =>
    rw [Build_no_data marshal r hexist hexpire hd]
    exact hTail _
  | some d =>
    cases hm : marshal d with
    | error e =>
      rw [Build_data_error marshal r d e hexist hexpire hd hm]
      simp only [hm]
    | ok raw =>
      rw [Build_data_ok marshal r d raw hexist hexpire hd hm]
      simp only [hm]
      exact hTail _

/-- C13: a call of Build leaves every field of the record as it was, and a
second call on the same record returns the list and the error of the first
call. -/
theorem Build_idempotent (marshal : α → Except ε β) (r : Options α) :
    ((BuildM marshal).run r).2 = r ∧
    ((BuildM marshal).run r).1 = Build marshal (some r) ∧
    ((BuildTwice marshal).run r).2 = r ∧
    ((BuildTwice marshal).run r).1.2 = ((BuildTwice marshal).run r).1.1 ∧
    ((BuildTwice marshal).run r).1.1 = ((BuildM marshal).run r).1 := by
  have h := BuildM_run marshal r
  have h2 : (BuildTwice marshal).run r =
      ((Build marshal (some r), Build marshal (some r)), r) := by
    show StateT.run (BuildM marshal >>= fun first =>
      BuildM marshal >>= fun second => pure (first, second)) r = _
    simp only [StateT.run_bind, h, Id.bind_eq, Id.pure_eq, StateT.run_pure]
  rw [h2, h]
  exact ⟨rfl, rfl, rfl, rfl, rfl⟩

/-- Two calls on the record whose payload does not encode: both return its
key, count and key value with the error of the encoder, and the record is
as before. -/
theorem Build_idempotent_witness :
    ((BuildTwice encodePayload).run sampleChan).2 = sampleChan ∧
    ((BuildTwice encodePayload).run sampleChan).1.2 =
      ((BuildTwice encodePayload).run sampleChan).1.1 ∧
    ((BuildM encodePayload).run sampleChan).1 =
      ([.str "k", .int 2, .str "f"], some (.cause "json: unsupported type: chan int")) :=
  ⟨(Build_idempotent encodePayload sampleChan).2.2.1,
   (Build_idempotent encodePayload sampleChan).2.2.2.1,
   (Build_idempotent encodePayload sampleChan).2.1.trans (by decide)⟩

/-- C14, as stated, fails: WithExist and then WithNotExist on a fresh record
give a reachable record with both flags true. -/
theorem exist_and_notExist_reachable :
    Reachable (applyAll [Call.withExist, Call.withNotExist]
      (NewCommandOptions : Options Payload)) ∧
    (applyAll [Call.withExist, Call.withNotExist]
      (NewCommandOptions : Options Payload)).exist = true ∧
    (applyAll [Call.withExist, Call.withNotExist]
      (NewCommandOptions : Options Payload)).notExist = true :=
  ⟨⟨_, rfl⟩, rfl, rfl⟩

/-- A call leaves `exist` true exactly when it was true or the call is
WithExist. -/
theorem run_exist_iff (c : Call α) (r : Options α) :
    (c.run r).exist = true ↔ (r.exist = true ∨ c = Call.withExist) := by
  cases c <;>
    simp only [Call.run, WithKey, WithOldKey, WithKeyValue, WithCount, WithData,
      WithExpireSecond, WithExpireMillisecond, WithExist, WithNotExist, WithRange, WithMinInf,
      WithMaxInf, Options.setKey, Options.setOldKey, Options.setKeyValue, Options.setIsCount,
      Options.setCount, Options.setData, Options.setExpireS, Options.setExpireM,
      Options.setExist, Options.setNotExist, Options.setIsRange, Options.setRange] <;>
    first | (split <;> simp) | simp

/-- A call leaves `notExist` true exactly when it was true or the call is
WithNotExist. -/
theorem run_notExist_iff (c : Call α) (r : Options α) :
    (c.run r).notExist = true ↔ (r.notExist = true ∨ c = Call.withNotExist) := by
  cases c <;>
    simp only [Call.run, WithKey, WithOldKey, WithKeyValue, WithCount, WithData,
      WithExpireSecond, WithExpireMillisecond, WithExist, WithNotExist, WithRange, WithMinInf,
      WithMaxInf, Options.setKey, Options.setOldKey, Options.setKeyValue, Options.setIsCount,
      Options.setCount, Options.setData, Options.setExpireS, Options.setExpireM,
      Options.setExist, Options.setNotExist, Options.setIsRange, Options.setRange] <;>
    first | (split <;> simp) | simp

theorem applyAll_exist_iff (calls : List (Call α)) (r : Options α) :
    (applyAll calls r).exist = true ↔ (r.exist = true ∨ Call.withExist ∈ calls) := by
  induction calls generalizing r with
  | nil => simp [applyAll]
  | cons c cs ih =>
    have h : applyAll (c :: cs) r = applyAll cs (c.run r) := rfl
    rw [h, ih (c.run r), run_exist_iff c r, List.mem_cons]
    constructor
    · rintro ((h1 | h1) | h1)
      · exact Or.inl h1
      · exact Or.inr (Or.inl h1.symm)
      · exact Or.inr (Or.inr h1)
    · rintro (h1 | h1 | h1)
      · exact Or.inl (Or.inl h1)
      · exact Or.inl (Or.inr h1.symm)
      · exact Or.inr h1

theorem applyAll_notExist_iff (calls : List (Call α)) (r : Options α) :
    (applyAll calls r).notExist = true ↔ (r.notExist = true ∨ Call.withNotExist ∈ calls) := by
  induction calls generalizing r with
  | nil => simp [applyAll]
  | cons c cs ih =>
    have h : applyAll (c :: cs) r = applyAll cs (c.run r) := rfl
    rw [h, ih (c.run r), run_notExist_iff c r, List.mem_cons]
    constructor
    · rintro ((h1 | h1) | h1)
      · exact Or.inl h1
      · exact Or.inr (Or.inl h1.symm)
      · exact Or.inr (Or.inr h1)
    · rintro (h1 | h1 | h1)
      · exact Or.inl (Or.inl h1)
      · exact Or.inl (Or.inr h1.symm)
      · exact Or.inr h1

/-- C14, amended: in the record a sequence of configuration functions
produces from a fresh record, `exist` is true exactly when the sequence
contains WithExist and `notExist` exactly when it contains WithNotExist;
so the two are not both true unless the sequence contains both calls, and
they are not both true in any such record that Build accepts. -/
theorem both_exist_iff_both_called (marshal : α → Except ε β) (calls : List (Call α)) :
    ((applyAll calls (NewCommandOptions : Options α)).exist = true ↔
      Call.withExist ∈ calls) ∧
    ((applyAll calls (NewCommandOptions : Options α)).notExist = true ↔
      Call.withNotExist ∈ calls) ∧
    (¬ (Call.withExist ∈ calls ∧ Call.withNotExist ∈ calls) →
      ¬ ((applyAll calls (NewCommandOptions : Options α)).exist = true ∧
        (applyAll calls (NewCommandOptions : Options α)).notExist = true)) ∧
    ((Build marshal (some (applyAll calls NewCommandOptions))).2 = none →
      ¬ ((applyAll calls (NewCommandOptions : Options α)).exist = true ∧
        (applyAll calls (NewCommandOptions : Options α)).notExist = true)) := by
  have he : (applyAll calls (NewCommandOptions : Options α)).exist = true ↔
      Call.withExist ∈ calls := by
    rw [applyAll_exist_iff]
    simp [NewCommandOptions]
  have hn : (applyAll calls (NewCommandOptions : Options α)).notExist = true ↔
      Call.withNotExist ∈ calls := by
    rw [applyAll_notExist_iff]
    simp [NewCommandOptions]
  refine ⟨he, hn, ?_, ?_⟩
  · intro hc hb
    exact hc ⟨he.mp hb.1, hn.mp hb.2⟩
  · intro hb h
    rw [Build_exist_conflict marshal _ h.1 h.2] at hb
    cases hb

/-- A sequence with WithExist and an unencodable payload but no
WithNotExist: Build rejects the record, and still only `exist` is true. -/
theorem both_exist_iff_both_called_witness :
    (Build encodePayload (some (applyAll [Call.withExist, Call.withData (some Payload.chan)]
      NewCommandOptions))).2 ≠ none ∧
    ¬ ((applyAll [Call.withExist, Call.withData (some Payload.chan)]
        (NewCommandOptions : Options Payload)).exist = true ∧
      (applyAll [Call.withExist, Call.withData (some Payload.chan)]
        (NewCommandOptions : Options Payload)).notExist = true) :=
  ⟨by decide,
   (both_exist_iff_both_called encodePayload
      [Call.withExist, Call.withData (some Payload.chan)]).2.2.1 (by decide)⟩

theorem run_keepTTL (c : Call α) (r : Options α) : (c.run r).keepTTL = r.keepTTL := by
  cases c <;>
    simp only [Call.run, WithKey, WithOldKey, WithKeyValue, WithCount, WithData,
      WithExpireSecond, WithExpireMillisecond, WithExist, WithNotExist, WithRange, WithMinInf,
      WithMaxInf, Options.setKey, Options.setOldKey, Options.setKeyValue, Options.setIsCount,
      Options.setCount, Options.setData, Options.setExpireS, Options.setExpireM,
      Options.setExist, Options.setNotExist, Options.setIsRange, Options.setRange] <;>
    first | rfl | (split <;> rfl)

theorem applyAll_keepTTL (calls : List (Call α)) (r : Options α) :
    (applyAll calls r).keepTTL = r.keepTTL := by
  induction calls generalizing r with
  | nil => rfl
  | cons c cs ih => exact (ih (c.run r)).trans (run_keepTTL c r)

/-- C15: no configuration function changes `keepTTL`, it is zero in every
reachable record, and Build returns the same for two records that differ
only in `keepTTL`. -/
theorem keepTTL_dead (marshal : α → Except ε β) (c : Call α) (r : Options α) (k : Int) :
    (c.run r).keepTTL = r.keepTTL ∧
    (Reachable r → r.keepTTL = 0) ∧
    Build marshal (some { r with keepTTL := k }) = Build marshal (some r) := by
  refine ⟨run_keepTTL c r, ?_, rfl⟩
  rintro ⟨calls, rfl⟩
  exact applyAll_keepTTL calls NewCommandOptions

/-- A reachable record has `keepTTL` zero, and the record with every field
set builds to the same list when its `keepTTL` is 9. -/
theorem keepTTL_dead_witness :
    (applyAll [Call.withKey "k", Call.withCount 3]
      (NewCommandOptions : Options Payload)).keepTTL = 0 ∧
    Build encodePayload (some { sampleFull with keepTTL := 9 }) =
      Build encodePayload (some sampleFull) :=
  ⟨(keepTTL_dead encodePayload (.withKey "k")
      (applyAll [Call.withKey "k", Call.withCount 3] NewCommandOptions) 0).2.1 ⟨_, rfl⟩,
   (keepTTL_dead encodePayload (.withKey "k") sampleFull 9).2.2⟩

/-! ## Frame and order of the configuration functions -/

/-- C16: each configuration function changes at most its own target field or
fields: putting the old values back into them gives the record it was
applied to. -/
theorem With_changes_only_its_fields (r : Options α) (key keyValue : String)
    (data : Option α) (count exp lower upper : Int) :
    { WithKey key r with key := r.key } = r ∧
    { WithOldKey key r with oldKey := r.oldKey } = r ∧
    { WithKeyValue keyValue r with keyValue := r.keyValue } = r ∧
    { WithData data r with data := r.data } = r ∧
    { WithCount count r with isCount := r.isCount, count := r.count } = r ∧
    { WithExpireSecond exp r with expireSecond := r.expireSecond } = r ∧
    { WithExpireMillisecond exp r with expireMilliSecond := r.expireMilliSecond } = r ∧
    { (WithExist r : Options α) with exist := r.exist } = r ∧
    { (WithNotExist r : Options α) with notExist := r.notExist } = r ∧
    { WithRange lower upper r with
      isRange := r.isRange, rangeLower := r.rangeLower, rangeUpper := r.rangeUpper } = r ∧
    { (WithMinInf r : Options α) with minInf := r.minInf } = r ∧
    { (WithMaxInf r : Options α) with maxInf := r.maxInf } = r := by
  refine ⟨?_, ?_, ?_, ?_, rfl, ?_, ?_, rfl, rfl, rfl, rfl, rfl⟩
  · simp only [WithKey, Options.setKey]
    split <;> rfl
  · simp only [WithOldKey, Options.setOldKey]
    split <;> rfl
  · simp only [WithKeyValue, Options.setKeyValue]
    split <;> rfl
  · simp only [WithData, Options.setData]
    split <;> rfl
  · simp only [WithExpireSecond, Options.setExpireS]
    split <;> rfl
  · simp only [WithExpireMillisecond, Options.setExpireM]
    split <;> rfl

/-- Two calls of different kinds write different fields, and what each
writes depends on its own fields only, so they commute. -/
theorem run_comm_of_kind_ne (c1 c2 : Call α) (r : Options α) (h : c1.kind ≠ c2.kind) :
    c2.run (c1.run r) = c1.run (c2.run r) := by
  cases c1 <;> cases c2 <;> first
    | exact absurd rfl h
    | (simp only [Call.run, WithKey, WithOldKey, WithKeyValue, WithCount, WithData,
        WithExpireSecond, WithExpireMillisecond, WithExist, WithNotExist, WithRange, WithMinInf,
        WithMaxInf, Options.setKey, Options.setOldKey, Options.setKeyValue, Options.setIsCount,
        Options.setCount, Options.setData, Options.setExpireS, Options.setExpireM,
        Options.setExist, Options.setNotExist, Options.setIsRange, Options.setRange]
       repeat' split
       all_goals rfl)

theorem applyAll_perm (l1 l2 : List (Call α)) (r : Options α) (hp : l1.Perm l2)
    (hn : (l1.map Call.kind).Nodup) : applyAll l1 r = applyAll l2 r := by
  unfold applyAll
  refine hp.foldl_eq' ?_ r
  intro x hx y hy z
  by_cases hxy : x.kind = y.kind
  · have h : x = y := List.inj_on_of_nodup_map hn hx hy hxy
    rw [h]
  · exact run_comm_of_kind_ne x y z hxy

/-- C17: two configuration functions of different kinds give the same record
in either order; hence a list of calls with each kind at most once gives the
same record, and so the same result of Build, in every permutation. -/
theorem order_of_different_kinds_irrelevant (marshal : α → Except ε β) (r : Options α)
    (c1 c2 : Call α) (l1 l2 : List (Call α)) :
    (c1.kind ≠ c2.kind → c2.run (c1.run r) = c1.run (c2.run r)) ∧
    (l1.Perm l2 → (l1.map Call.kind).Nodup →
      applyAll l1 r = applyAll l2 r ∧
      Build marshal (some (applyAll l1 r)) = Build marshal (some (applyAll l2 r))) := by
  refine ⟨run_comm_of_kind_ne c1 c2 r, fun hp hn => ?_⟩
  have h := applyAll_perm l1 l2 r hp hn
  exact ⟨h, by rw [h]⟩

/-- WithExist and WithNotExist in both orders, and a key, an expiry and a
count in two orders, which build to the list in the order Build fixes. -/
theorem order_of_different_kinds_irrelevant_witness :
    (WithNotExist (WithExist (NewCommandOptions : Options Payload)) =
      WithExist (WithNotExist NewCommandOptions)) ∧
    Build encodePayload (some (applyAll
        [Call.withExpireSecond 10, Call.withCount 2, Call.withKey "foo"] NewCommandOptions)) =
      Build encodePayload (some (applyAll
        [Call.withKey "foo", Call.withCount 2, Call.withExpireSecond 10] NewCommandOptions)) :=
  ⟨(order_of_different_kinds_irrelevant encodePayload NewCommandOptions
      Call.withExist Call.withNotExist [] []).1 (by decide),
   ((order_of_different_kinds_irrelevant encodePayload NewCommandOptions
      Call.withExist Call.withNotExist
      [Call.withExpireSecond 10, Call.withCount 2, Call.withKey "foo"]
      [Call.withKey "foo", Call.withCount 2, Call.withExpireSecond 10]).2
      (by decide) (by decide)).2⟩

/-! ## Length of the list -/

theorem headArgs_length_le (r : Options α) : (headArgs r : List (Arg β)).length ≤ 4 := by
  simp only [headArgs, List.length_append]
  have h1 : (if r.oldKey ≠ "" then [Arg.str r.oldKey] else ([] : List (Arg β))).length ≤ 1 := by
    split <;> simp
  have h2 : (if r.key ≠ "" then [Arg.str r.key] else ([] : List (Arg β))).length ≤ 1 := by
    split <;> simp
  have h3 : (if r.isCount = true then [Arg.int r.count] else ([] : List (Arg β))).length ≤ 1 := by
    split <;> simp
  have h4 : (if r.keyValue ≠ "" then [Arg.str r.keyValue]
      else ([] : List (Arg β))).length ≤ 1 := by
    split <;> simp
  omega

theorem tailArgs_length_le (r : Options α)
    (hexist : ¬ (r.exist = true ∧ r.notExist = true))
    (hexpire : ¬ (r.expireSecond > 0 ∧ r.expireMilliSecond > 0)) :
    (tailArgs r : List (Arg β)).length ≤ 7 := by
  simp only [tailArgs, List.length_append]
  have h1 : (if r.expireSecond > 0 then [Arg.str "EX", Arg.int64 r.expireSecond]
        else ([] : List (Arg β))).length +
      (if r.expireMilliSecond > 0 then [Arg.str "PX", Arg.int64 r.expireMilliSecond]
        else ([] : List (Arg β))).length ≤ 2 := by
    split <;> split <;> simp_all
  have h2 : (if r.exist = true then [Arg.str "XX"] else ([] : List (Arg β))).length +
      (if r.notExist = true then [Arg.str "NX"] else ([] : List (Arg β))).length ≤ 1 := by
    split <;> split <;> simp_all
  have h3 : (if r.isRange = true then [Arg.int r.rangeLower, Arg.int r.rangeUpper]
      else ([] : List (Arg β))).length ≤ 2 := by
    split <;> simp
  have h4 : (if r.minInf ≠ "" then [Arg.str r.minInf] else ([] : List (Arg β))).length ≤ 1 := by
    split <;> simp
  have h5 : (if r.maxInf ≠ "" then [Arg.str r.maxInf] else ([] : List (Arg β))).length ≤ 1 := by
    split <;> simp
  omega

/-- C18: when Build returns a nil error the list has at most 12 entries, the
record then having neither both existence flags nor both expiries set; and
the record with every field set builds to 12 entries with a nil error. -/
theorem Build_length_le_twelve (marshal : α → Except ε β) (options : Option (Options α)) :
    ((Build marshal options).2 = none →
      (Build marshal options).1.length ≤ 12 ∧
      ∀ r, options = some r →
        ¬ (r.exist = true ∧ r.notExist = true) ∧
        ¬ (r.expireSecond > 0 ∧ r.expireMilliSecond > 0)) ∧
    ∃ r : Options Payload,
      (Build encodePayload (some r)).2 = none ∧ (Build encodePayload (some r)).1.length = 12 := by
  refine ⟨fun hb => ?_, sampleFull, by decide, by decide⟩
  cases options with
  | none => exact ⟨by simp [Build], fun r h => by cases h⟩
  | some r =>
    by_cases hexist : r.exist = true ∧ r.notExist = true
    · rw [Build_exist_conflict marshal r hexist.1 hexist.2] at hb
      cases hb
    by_cases hexpire : r.expireSecond > 0 ∧ r.expireMilliSecond > 0
    · rw [Build_expire_conflict marshal r hexist hexpire.1 hexpire.2] at hb
      cases hb
    have hh : (headArgs r : List (Arg β)).length ≤ 4 := headArgs_length_le r
    have ht : (tailArgs r : List (Arg β)).length ≤ 7 := tailArgs_length_le r hexist hexpire
    refine ⟨?_, fun r2 h => by cases h; exact ⟨hexist, hexpire⟩⟩
    cases hd : r.data with
    | none =>
      rw [Build_no_data marshal r hexist hexpire hd]
      simp only [List.length_append]
      omega
    | some d =>
      cases hm : marshal d with
      | error e =>
        rw [Build_data_error marshal r d e hexist hexpire hd hm] at hb
        cases hb
      | ok raw =>
        rw [Build_data_ok marshal r d raw hexist hexpire hd hm]
        simp only [List.length_append, List.length_singleton]
        omega

/-- The fresh record with a key and a count builds to two entries. -/
theorem Build_length_le_twelve_witness :
    (Build encodePayload (some (applyAll [Call.withKey "k", Call.withCount 2]
      NewCommandOptions))).1.length ≤ 12 :=
  ((Build_length_le_twelve encodePayload (some (applyAll [Call.withKey "k", Call.withCount 2]
      NewCommandOptions))).1 (by decide)).1

end Redis
